import Mathlib

/-!
Verification model of the goose-server-go backend.

Go strings are modelled as lists of characters (`GoStr`); for the inputs the
claims quantify over, Go's byte length coincides with the character count.
Go maps are modelled as association lists; JSON round-trip values that the
code treats as opaque blobs are modelled as opaque strings.  SQLite storage
is modelled as an association list keyed by session id, and clock / UUID
reads (`time.Now()`, `uuid.New()`) are passed in as explicit parameters.
Machine `int32` values are modelled as `Int` with explicit two's-complement
reduction (`i32`) where the Go code performs an `int32` conversion or an
`int32` addition.  Go `unicode.ToLower` (used by `strings.ToLower`) is
modelled by its ASCII fragment, which is the fragment exercised by the
extension keys and environment variable names of this repository.
-/

namespace GooseSpec

set_option maxRecDepth 20000

/-- Go strings modelled as lists of characters. -/
abbrev GoStr := List Char

/-- ASCII fragment of Go `unicode.ToLower`: maps `A`..`Z` to `a`..`z` and
leaves every other character unchanged (mirrors `Char.toLower`). -/
def goToLower (c : Char) : Char :=
  if 65 ≤ c.toNat ∧ c.toNat ≤ 90 then Char.ofNat (c.toNat + 32) else c

/-- Go `strings.ToLower`, modelled character-wise on the ASCII fragment. -/
def strToLower (s : GoStr) : GoStr := s.map goToLower

/-! ### Extension package: `internal/extension` -/

/-- `NameToKey` from the extension config file: drop space, tab, newline and
carriage return characters, then lower-case the result. -/
def NameToKey (name : GoStr) : GoStr :=
  strToLower (name.filter
    (fun r => !(r = ' ' || r = '\t' || r = '\n' || r = '\r')))

/-- `DisallowedEnvKeys` from the extension config file, verbatim. -/
def DisallowedEnvKeys : List GoStr :=
  [ "PATH".toList, "PATHEXT".toList, "SystemRoot".toList, "windir".toList,
    "LD_LIBRARY_PATH".toList, "LD_PRELOAD".toList, "LD_AUDIT".toList,
    "LD_DEBUG".toList, "LD_BIND_NOW".toList, "LD_ASSUME_KERNEL".toList,
    "DYLD_LIBRARY_PATH".toList, "DYLD_INSERT_LIBRARIES".toList,
    "DYLD_FRAMEWORK_PATH".toList,
    "PYTHONPATH".toList, "PYTHONHOME".toList, "NODE_OPTIONS".toList,
    "RUBYOPT".toList, "GEM_PATH".toList, "GEM_HOME".toList,
    "CLASSPATH".toList, "GO111MODULE".toList, "GOROOT".toList,
    "APPINIT_DLLS".toList, "SESSIONNAME".toList, "ComSpec".toList,
    "TEMP".toList, "TMP".toList, "LOCALAPPDATA".toList,
    "USERPROFILE".toList, "HOMEDRIVE".toList, "HOMEPATH".toList ]

/-- `IsEnvKeyDisallowed`: case-insensitive membership in `DisallowedEnvKeys`. -/
def IsEnvKeyDisallowed (key : GoStr) : Bool :=
  DisallowedEnvKeys.any (fun disallowed => strToLower disallowed = strToLower key)

/-- `ValidateEnvs`: keep exactly the pairs whose key is not disallowed.
The Go map is modelled as an association list. -/
def ValidateEnvs (envs : List (GoStr × GoStr)) : List (GoStr × GoStr) :=
  envs.filter (fun kv => !IsEnvKeyDisallowed kv.1)

/-- `PrefixToolName`: `extensionKey + "__" + toolName`. -/
def PrefixToolName (extensionKey toolName : GoStr) : GoStr :=
  extensionKey ++ [ '_', '_' ] ++ toolName

/-- Split at the leftmost occurrence of `"__"`, as `strings.SplitN(s, "__", 2)`
does; `none` models the `len(parts) != 2` error branch. -/
def splitOnFirstDU : GoStr → Option (GoStr × GoStr)
  | [] => none
  | [_] => none
  | c :: d :: rest =>
    if c = '_' ∧ d = '_' then some ([], rest)
    else (splitOnFirstDU (d :: rest)).map (fun p => (c :: p.1, p.2))

/-- `ParsePrefixedToolName`, returning `(extensionKey, toolName)`. -/
def ParsePrefixedToolName (prefixedName : GoStr) : Option (GoStr × GoStr) :=
  splitOnFirstDU prefixedName

/-- The seven transport variants of `ExtensionConfig`. -/
inductive ExtensionType where
  | sse | stdio | builtin | platform | streamableHttp | frontend | inlinePython
deriving DecidableEq, Repr

/-- `ExtensionConfig` (discriminated union on `Type`); opaque JSON payloads
are modelled as opaque strings. -/
structure ExtensionConfig where
  type : ExtensionType
  name : GoStr
  description : GoStr := []
  timeout : Option Nat := none
  bundled : Option Bool := none
  availableTools : List GoStr := []
  envs : List (GoStr × GoStr) := []
  envKeys : List GoStr := []
  uri : GoStr := []
  headers : List (GoStr × GoStr) := []
  cmd : GoStr := []
  args : List GoStr := []
  code : GoStr := []
  dependencies : List GoStr := []
deriving DecidableEq, Repr

/-- `ExtensionConfig.Key`: the normalised map key. -/
def ExtensionConfig.Key (c : ExtensionConfig) : GoStr := NameToKey c.name

/-- `IsToolAvailable`: empty `availableTools` allows every tool. -/
def ExtensionConfig.IsToolAvailable (c : ExtensionConfig) (toolName : GoStr) : Bool :=
  if c.availableTools = [] then true else c.availableTools.contains toolName

/-- Key-level model of `Manager.AddExtension`: reject an existing key, then
(given that transport client creation succeeds, abstracted as `clientOk`)
register the extension under `config.Key()`.  Environment merging and the
MCP handshake do not touch the key set. -/
def addExtensionKey (keys : List GoStr) (config : ExtensionConfig)
    (clientOk : Bool) : Except Unit (List GoStr) :=
  let key := config.Key
  if keys.contains key then .error ()
  else if clientOk then .ok (key :: keys)
  else .error ()

/-! ### Data model: `internal/models` -/

/-- Message sender role. -/
inductive Role where
  | user | assistant
deriving DecidableEq, Repr

/-- Message visibility metadata. -/
structure MessageMetadata where
  userVisible : Bool
  agentVisible : Bool
deriving DecidableEq, Repr

/-- `MessageContent` (discriminated union on `type`); raw JSON payloads are
modelled as opaque strings. -/
structure MessageContent where
  type : GoStr
  text : Option GoStr := none
  data : Option GoStr := none
  mimeType : Option GoStr := none
  id : Option GoStr := none
  toolCall : Option GoStr := none
  toolResult : Option GoStr := none
  toolName : Option GoStr := none
  arguments : Option GoStr := none
  thoughtSignature : Option GoStr := none
  thinking : Option GoStr := none
  signature : Option GoStr := none
  notificationType : Option GoStr := none
  msg : Option GoStr := none
  actionData : Option GoStr := none
deriving DecidableEq, Repr

/-- A chat message. -/
structure Message where
  role : Role
  created : Int
  content : List MessageContent
  metadata : MessageMetadata
  id : Option GoStr := none
deriving DecidableEq, Repr

/-- The `"text"` content-type tag. -/
def contentTypeText : GoStr := "text".toList

/-- `NewUserMessage`; `time.Now().Unix()` is the explicit `now` argument. -/
def NewUserMessage (text : GoStr) (now : Int) : Message :=
  { role := .user
    created := now
    content := [ { type := contentTypeText, text := some text } ]
    metadata := { userVisible := true, agentVisible := true } }

/-- `NewAssistantMessage`; `time.Now().Unix()` is the explicit `now` argument. -/
def NewAssistantMessage (text : GoStr) (now : Int) : Message :=
  { role := .assistant
    created := now
    content := [ { type := contentTypeText, text := some text } ]
    metadata := { userVisible := true, agentVisible := true } }

/-- `TokenState`: the six `int32` counters, modelled as `Int`. -/
structure TokenState where
  inputTokens : Int
  outputTokens : Int
  totalTokens : Int
  accumulatedInputTokens : Int
  accumulatedOutputTokens : Int
  accumulatedTotalTokens : Int
deriving DecidableEq, Repr

/-- Session type tags. -/
inductive SessionType where
  | user | scheduled | subAgent | hidden | terminal
deriving DecidableEq, Repr

/-- `Session`: timestamps as integers, opaque JSON columns as opaque
strings, maps as association lists. -/
structure Session where
  id : GoStr
  workingDir : GoStr
  name : GoStr
  createdAt : Int
  updatedAt : Int
  extensionData : List (GoStr × GoStr) := []
  messageCount : Nat := 0
  conversation : List Message := []
  inputTokens : Option Int := none
  outputTokens : Option Int := none
  totalTokens : Option Int := none
  accumulatedInputTokens : Option Int := none
  accumulatedOutputTokens : Option Int := none
  accumulatedTotalTokens : Option Int := none
  providerName : Option GoStr := none
  modelConfig : Option GoStr := none
  recipe : Option GoStr := none
  scheduleId : Option GoStr := none
  sessionType : Option SessionType := none
  userRecipeValues : List (GoStr × GoStr) := []
  userSetName : Bool := false
deriving DecidableEq, Repr

/-- `NewSession`: `uuid.New()` and `time.Now()` are explicit arguments. -/
def NewSession (workingDir : GoStr) (freshId : GoStr) (now : Int) : Session :=
  { id := freshId
    workingDir := workingDir
    name := "New Session".toList
    createdAt := now
    updatedAt := now
    extensionData := []
    messageCount := 0
    conversation := []
    sessionType := some .user }

/-! ### SSE events: `models` events file with custom `MarshalJSON` -/

/-- The seven `MessageEventType` tags. -/
inductive MessageEventType where
  | Message | Error | Finish | ModelChange | Notification | UpdateConversation | Ping
deriving DecidableEq, Repr

/-- `MessageEvent`: the discriminated union carried over SSE.  The
`NotificationMessage` field holds the raw `ServerNotification` JSON. -/
structure MessageEvent where
  type : MessageEventType
  message : Option Message := none
  tokenState : Option TokenState := none
  error : Option GoStr := none
  reason : Option GoStr := none
  model : Option GoStr := none
  mode : Option GoStr := none
  requestID : Option GoStr := none
  notificationMessage : Option GoStr := none
  conversation : List Message := []
deriving DecidableEq, Repr

/-- A JSON field value as emitted by `MessageEvent.MarshalJSON`; each
constructor records which struct field was serialised under the key. -/
inductive JsonFieldValue where
  | tag (t : MessageEventType)
  | msg (m : Option Message)
  | tok (t : Option TokenState)
  | str (s : Option GoStr)
  | raw (r : Option GoStr)
  | conv (c : List Message)
deriving DecidableEq, Repr

/-- JSON key `type`. -/
def keyType : GoStr := "type".toList

/-- JSON key `message`. -/
def keyMessage : GoStr := "message".toList

/-- JSON key `token_state`. -/
def keyTokenState : GoStr := "token_state".toList

/-- JSON key `error`. -/
def keyError : GoStr := "error".toList

/-- JSON key `reason`. -/
def keyReason : GoStr := "reason".toList

/-- JSON key `model`. -/
def keyModel : GoStr := "model".toList

/-- JSON key `mode`. -/
def keyMode : GoStr := "mode".toList

/-- JSON key `request_id`. -/
def keyRequestId : GoStr := "request_id".toList

/-- JSON key `notification` (never emitted; used to state its absence). -/
def keyNotificationField : GoStr := "notification".toList

/-- JSON key `conversation`. -/
def keyConversation : GoStr := "conversation".toList

/-- `MessageEvent.MarshalJSON`: the ordered field list of the JSON object
emitted for each variant, translated from the `switch` on `e.Type`. -/
def MessageEvent.MarshalJSON (e : MessageEvent) : List (GoStr × JsonFieldValue) :=
  match e.type with
  | .Message =>
    [ (keyType, .tag e.type), (keyMessage, .msg e.message),
      (keyTokenState, .tok e.tokenState) ]
  | .Error =>
    [ (keyType, .tag e.type), (keyError, .str e.error) ]
  | .Finish =>
    [ (keyType, .tag e.type), (keyReason, .str e.reason),
      (keyTokenState, .tok e.tokenState) ]
  | .ModelChange =>
    [ (keyType, .tag e.type), (keyModel, .str e.model),
      (keyMode, .str e.mode) ]
  | .Notification =>
    [ (keyType, .tag e.type), (keyRequestId, .str e.requestID),
      (keyMessage, .raw e.notificationMessage) ]
  | .UpdateConversation =>
    [ (keyType, .tag e.type), (keyConversation, .conv e.conversation) ]
  | .Ping =>
    [ (keyType, .tag e.type) ]

/-- `NewMessageEvent`. -/
def NewMessageEvent (msg : Message) (tokenState : Option TokenState) : MessageEvent :=
  { type := .Message, message := some msg, tokenState := tokenState }

/-- `NewFinishEvent`. -/
def NewFinishEvent (reason : GoStr) (tokenState : Option TokenState) : MessageEvent :=
  { type := .Finish, reason := some reason, tokenState := tokenState }

/-- `NewNotificationEvent`: the raw notification payload is stored in the
`NotificationMessage` field. -/
def NewNotificationEvent (requestID : GoStr) (notification : GoStr) : MessageEvent :=
  { type := .Notification, requestID := some requestID,
    notificationMessage := some notification }

/-! ### Machine integer model -/

/-- Two's-complement reduction to `int32`, as performed by a Go `int32(x)`
conversion. -/
def i32 (n : Int) : Int :=
  let m := n % 4294967296
  if m < 2147483648 then m else m - 4294967296

/-- Go `int32` addition (wraps on overflow). -/
def i32add (a b : Int) : Int := i32 (a + b)

/-! ### Mock provider: `internal/agent/mock_provider.go` -/

/-- Byte length contributed by one content part in `estimateTokens`:
`len(*content.Text)` when `content.Type == "text" && content.Text != nil`. -/
def contentTextLen (c : MessageContent) : Nat :=
  match c.text with
  | some t => if c.type = contentTypeText then t.length else 0
  | none => 0

/-- Total text length of one message. -/
def messageTextLen (m : Message) : Nat := (m.content.map contentTextLen).sum

/-- Total text length of a conversation (the `total` accumulator of
`estimateTokens` before the division). -/
def conversationTextLen (msgs : List Message) : Nat :=
  (msgs.map messageTextLen).sum

/-- `estimateTokens`: `int32(total / 4)`. -/
def estimateTokens (msgs : List Message) : Int :=
  i32 ((conversationTextLen msgs / 4 : Nat) : Int)

/-- First `"text"` content of a message's parts (the inner loop of
`generateMockResponse`, which breaks at the first text part). -/
def firstTextOfContents : List MessageContent → GoStr
  | [] => []
  | c :: rest =>
    match c.text with
    | some t => if c.type = contentTypeText then t else firstTextOfContents rest
    | none => firstTextOfContents rest

/-- Text of the last user message, or empty (the outer loop of
`generateMockResponse` scans from the end and stops at the first user
message whether or not it has a text part). -/
def lastUserText (msgs : List Message) : GoStr :=
  match msgs.reverse.find? (fun m => m.role = .user) with
  | some m => firstTextOfContents m.content
  | none => []

/-- `truncate`: keep the first `length` bytes and append `"..."`. -/
def goTruncate (s : GoStr) (length : Nat) : GoStr :=
  if s.length ≤ length then s else s.take length ++ "...".toList

/-- The default mock reply used when no user text was found. -/
def mockDefaultText : GoStr :=
  "This is a mock response from the Go server. The mock provider is active because no real LLM provider is configured. Set ANTHROPIC_API_KEY or OPENAI_API_KEY to use real providers.".toList

/-- The text before `%s` in the mock reply format string. -/
def mockReplyHead : GoStr := "Mock response to: \"".toList

/-- The text after `%s` in the mock reply format string. -/
def mockReplyTail : GoStr :=
  "\"\n\nThis is a mock response from the Go goose-server. To get real responses, configure an LLM provider:\n\n- Set ANTHROPIC_API_KEY for Claude\n- Set OPENAI_API_KEY for GPT models".toList

/-- `generateMockResponse`. -/
def generateMockResponse (msgs : List Message) : GoStr :=
  let lastUserContent := lastUserText msgs
  if lastUserContent = [] then mockDefaultText
  else mockReplyHead ++ goTruncate lastUserContent 100 ++ mockReplyTail

/-- The `TokenState` built by `MockProviderAdapter.Chat`: per-turn and
accumulated fields both hold only this turn's estimates. -/
def mockTokenState (msgs : List Message) : TokenState :=
  let inputTokens := estimateTokens msgs
  let outputTokens := i32 (((generateMockResponse msgs).length / 4 : Nat) : Int)
  { inputTokens := inputTokens
    outputTokens := outputTokens
    totalTokens := i32add inputTokens outputTokens
    accumulatedInputTokens := inputTokens
    accumulatedOutputTokens := outputTokens
    accumulatedTotalTokens := i32add inputTokens outputTokens }

/-- The event stream produced by `MockProviderAdapter.Chat` when the context
is never cancelled: one `Message` event then one `Finish("stop")`. -/
def mockChatEvents (msgs : List Message) (created : Int) : List MessageEvent :=
  [ NewMessageEvent (NewAssistantMessage (generateMockResponse msgs) created)
      (some (mockTokenState msgs)),
    NewFinishEvent ( "stop".toList) (some (mockTokenState msgs)) ]

/-! ### SSE reply pipeline: `internal/server/routes/reply.go` -/

/-- The token state seeded from the session's accumulated counters (zeros
when absent). -/
def seedTokenState (sess : Session) : TokenState :=
  { inputTokens := 0
    outputTokens := 0
    totalTokens := 0
    accumulatedInputTokens := (sess.accumulatedInputTokens).getD 0
    accumulatedOutputTokens := (sess.accumulatedOutputTokens).getD 0
    accumulatedTotalTokens := (sess.accumulatedTotalTokens).getD 0 }

/-- The event loop of `streamResponse` (no cancellation, all SSE writes
succeed): adopt each event's token state and append `Message` events to the
conversation. -/
def streamLoop : Session → TokenState → List MessageEvent → Session × TokenState
  | sess, tokenState, [] => (sess, tokenState)
  | sess, tokenState, e :: rest =>
    let tokenState' := (e.tokenState).getD tokenState
    let sess' :=
      match e.message with
      | some m =>
        if e.type = .Message then
          { sess with conversation := sess.conversation ++ [m] }
        else sess
      | none => sess
    streamLoop sess' tokenState' rest

/-- The end-of-stream commit of `streamResponse`: `messageCount` from the
conversation and all six token fields from the final token state
(`updatedAt` is then set by `Storage.Update`). -/
def commitSession (sess : Session) (tokenState : TokenState) (now : Int) : Session :=
  { sess with
    messageCount := sess.conversation.length
    inputTokens := some tokenState.inputTokens
    outputTokens := some tokenState.outputTokens
    totalTokens := some tokenState.totalTokens
    accumulatedInputTokens := some tokenState.accumulatedInputTokens
    accumulatedOutputTokens := some tokenState.accumulatedOutputTokens
    accumulatedTotalTokens := some tokenState.accumulatedTotalTokens
    updatedAt := now }

/-- One `/reply` call (`streamResponse` specialised to the mock provider on
its uncancelled happy path): append the inbound messages, stream the mock
events, commit. -/
def replyCall (sess : Session) (msgs : List Message) (created now : Int) : Session :=
  let conv1 := sess.conversation ++ msgs
  let s1 := { sess with conversation := conv1 }
  let r := streamLoop s1 (seedTokenState sess) (mockChatEvents conv1 created)
  commitSession r.1 r.2 now

/-- The successive session states after each call of a finite sequence of
`/reply` calls; each call carries its batch of inbound messages and the two
clock readings it observes. -/
def replySeqStates : Session → List (List Message × Int × Int) → List Session
  | _, [] => []
  | sess, (msgs, created, now) :: rest =>
    let s' := replyCall sess msgs created now
    s' :: replySeqStates s' rest

/-- The observed `accumulatedTotalTokens` of a session (`0` when unset). -/
def accTotal (sess : Session) : Int := (sess.accumulatedTotalTokens).getD 0

/-! ### Session store: `internal/session/manager.go` -/

/-- Association-list lookup keyed by session id. -/
def lookupA (l : List (GoStr × Session)) (id : GoStr) : Option Session :=
  (l.find? (fun p => p.1 = id)).map Prod.snd

/-- Association-list insert / overwrite. -/
def insertA (l : List (GoStr × Session)) (id : GoStr) (s : Session) :
    List (GoStr × Session) :=
  (id, s) :: l.filter (fun p => !(p.1 = id))

/-- `Storage.Get`: single-row read; when `includeConversation` is false the
conversation column is left undecoded (empty). -/
def storageGet (st : List (GoStr × Session)) (id : GoStr)
    (includeConversation : Bool) : Option Session :=
  match lookupA st id with
  | none => none
  | some row =>
    some (if includeConversation then row else { row with conversation := [] })

/-- The effect of `Storage.Update`'s SQL `UPDATE` on the table: every row
whose id matches has each column of the `SET` list (all columns except `id`
and `created_at`) overwritten from the passed record, with `updatedAt`
freshly set; the stored `created_at` is preserved (it is not in the `SET`
list), and every other row is untouched. -/
def overwriteRows (st : List (GoStr × Session)) (sess : Session) (now : Int) :
    List (GoStr × Session) :=
  st.map (fun p =>
    if p.1 = sess.id then
      (p.1, { sess with createdAt := p.2.createdAt, updatedAt := now })
    else p)

/-- `Storage.Update`: sets `updatedAt = now`, then runs an SQL `UPDATE`
keyed on the id.  `RowsAffected` is never consulted, so the call reports
success whether or not a row matched; database failures are out of model.
Returns the new table and the written record. -/
def storageUpdate (st : List (GoStr × Session)) (sess : Session) (now : Int) :
    Except Unit (List (GoStr × Session) × Session) :=
  .ok (overwriteRows st sess now, { sess with updatedAt := now })

/-- `Storage.Delete`: errors with `sql.ErrNoRows` when no row was affected. -/
def storageDelete (st : List (GoStr × Session)) (id : GoStr) :
    Except Unit (List (GoStr × Session)) :=
  if (lookupA st id).isSome then .ok (st.filter (fun p => !(p.1 = id)))
  else .error ()

/-- `Storage.Create`: SQL `INSERT`; the primary key constraint rejects a
duplicate id. -/
def storageCreate (st : List (GoStr × Session)) (sess : Session) :
    Except Unit (List (GoStr × Session)) :=
  if (lookupA st sess.id).isSome then .error ()
  else .ok ((sess.id, sess) :: st)

/-- The session `Manager`: SQLite table plus the in-memory read-through
cache (`sync.Map`), both keyed by id. -/
structure ManagerState where
  storage : List (GoStr × Session)
  cache : List (GoStr × Session)
deriving DecidableEq, Repr

/-- `Manager.Get`: check the cache first (on a hit without conversation,
return a copy with the conversation stripped); otherwise read storage and
cache the result only when the conversation was loaded. -/
def managerGet (m : ManagerState) (id : GoStr) (includeConversation : Bool) :
    Option Session × ManagerState :=
  match lookupA m.cache id with
  | some s =>
    (some (if includeConversation then s else { s with conversation := [] }), m)
  | none =>
    match storageGet m.storage id includeConversation with
    | none => (none, m)
    | some s =>
      (some s,
       if includeConversation then { m with cache := insertA m.cache id s } else m)

/-- `Manager.Update`: storage update then `cache.Store` of the written
record (whose `updatedAt` was set by `Storage.Update`). -/
def managerUpdate (m : ManagerState) (sess : Session) (now : Int) :
    Except Unit ManagerState :=
  match storageUpdate m.storage sess now with
  | .error e => .error e
  | .ok (st', sess') => .ok { storage := st', cache := insertA m.cache sess.id sess' }

/-- `Manager.Import`: decode (already done here), build a fresh session via
`NewSession`, carry over name, conversation, message count and extension
data, and insert it. -/
def managerImport (m : ManagerState) (input : Session) (freshId : GoStr)
    (now : Int) : Except Unit (ManagerState × Session) :=
  let newSession :=
    { NewSession input.workingDir freshId now with
      name := input.name
      conversation := input.conversation
      messageCount := input.conversation.length
      extensionData := input.extensionData }
  match storageCreate m.storage newSession with
  | .error e => .error e
  | .ok st' => .ok ({ m with storage := st' }, newSession)

/-! ### Session routes: `internal/server/routes/session.go` -/

/-- Index of the first message whose `Created` equals the timestamp. -/
def findMessageIdx (conv : List Message) (timestamp : Int) : Option Nat :=
  conv.findIdx? (fun msg => msg.created = timestamp)

/-- The `" (fork)"` name suffix. -/
def forkNameSuffix : GoStr := " (fork)".toList

/-- The new session built by the fork branch of `EditMessage`: a fresh
session via `NewSession`, the original's name plus `" (fork)"`, and the
first `k` messages of the original conversation. -/
def forkSession (sess : Session) (freshId : GoStr) (now : Int) (k : Nat) : Session :=
  { NewSession sess.workingDir freshId now with
    name := sess.name ++ forkNameSuffix
    conversation := sess.conversation.take k
    messageCount := k }

/-- `EditMessage` with `editType = fork`: find the first message matching
the timestamp, build a new session holding the strict prefix before it, and
store it through `Manager.Update`.  `none` models the 404 responses. -/
def editMessageFork (m : ManagerState) (sessionId : GoStr) (timestamp : Int)
    (freshId : GoStr) (now : Int) : Option (ManagerState × GoStr) :=
  match managerGet m sessionId true with
  | (none, _) => none
  | (some sess, m1) =>
    match findMessageIdx sess.conversation timestamp with
    | none => none
    | some k =>
      let newSession := forkSession sess freshId now k
      match managerUpdate m1 newSession now with
      | .error _ => none
      | .ok m2 => some (m2, newSession.id)

/-! ### Scheduler: `internal/scheduler/scheduler.go` -/

/-- `ScheduledJob`. -/
structure ScheduledJob where
  id : GoStr
  source : GoStr
  cron : GoStr
  lastRun : Option Int := none
  currentlyRunning : Bool := false
  paused : Bool := false
  currentSessionId : Option GoStr := none
  processStartTime : Option Int := none
deriving DecidableEq, Repr

/-- `splitCronFields`: split on runs of spaces and tabs. -/
def splitCronFields (expr : GoStr) : List GoStr :=
  let r := expr.foldl
    (fun (acc : List GoStr × GoStr) c =>
      if c = ' ' ∨ c = '\t' then
        if acc.2 = [] then acc else (acc.1 ++ [acc.2], [])
      else (acc.1, acc.2 ++ [c]))
    ([], [])
  if r.2 = [] then r.1 else r.1 ++ [r.2]

/-- `normalizeCron`: prepend a seconds field to 5-field expressions. -/
def normalizeCron (expr : GoStr) : GoStr :=
  if (splitCronFields expr).length = 5 then "0 ".toList ++ expr else expr

/-- Association-list insert / overwrite for the scheduler's job map. -/
def insertJob (l : List (GoStr × ScheduledJob)) (id : GoStr) (j : ScheduledJob) :
    List (GoStr × ScheduledJob) :=
  (id, j) :: l.filter (fun p => !(p.1 = id))

/-- One iteration of `Scheduler.loadFromStorage`'s loop: skip a job whose
source file is gone, zero the running state, register with the cron runtime
(success abstracted as `cronOk`), and record the job in the map. -/
def loadStep (sourceExists cronOk : GoStr → Bool)
    (registered : List (GoStr × ScheduledJob)) (job : ScheduledJob) :
    List (GoStr × ScheduledJob) :=
  if sourceExists job.source then
    let j := { job with currentlyRunning := false
                        currentSessionId := none
                        processStartTime := none }
    if cronOk (normalizeCron j.cron) then insertJob registered job.id j
    else registered
  else registered

/-- `Scheduler.loadFromStorage` over the persisted job list. -/
def loadFromStorage (jobs : List ScheduledJob) (sourceExists : GoStr → Bool)
    (cronOk : GoStr → Bool) : List (GoStr × ScheduledJob) :=
  jobs.foldl (loadStep sourceExists cronOk) []

/-! ### Derived notions and concrete instances used in the statements -/

/-- Uppercase letter of the ASCII fragment modelled by `goToLower`. -/
def isAsciiUpper (c : Char) : Bool := 65 ≤ c.toNat ∧ c.toNat ≤ 90

/-- Whether a string contains the substring `"__"` (checked at consecutive
positions, as `strings.Contains(s, "__")` would). -/
def hasDoubleUS : GoStr → Bool
  | [] => false
  | [_] => false
  | c :: d :: rest => (c = '_' ∧ d = '_') || hasDoubleUS (d :: rest)

/-- Invariant linking a session's accumulated-total counter to the text
length of its conversation: it holds of every state written by a mock
`/reply` call whose conversation stays below the `int32` overflow bound. -/
def AccLink (sess : Session) : Prop :=
  ∀ a, sess.accumulatedTotalTokens = some a →
    0 ≤ a ∧ a ≤ ((conversationTextLen sess.conversation / 4 : Nat) : Int)

/-- A concrete `Notification` event. -/
def eventC1 : MessageEvent :=
  NewNotificationEvent ( "req-123".toList) ( "mcp-progress".toList)

/-- A concrete stored session used in the cache counterexample. -/
def sessStoredC3 : Session :=
  { id := "s1".toList, workingDir := "/tmp/w".toList, name := "stored".toList,
    createdAt := 0, updatedAt := 0,
    conversation := [ NewUserMessage ( "hello".toList) 5 ] }

/-- The stale cached copy of the same session id, with a different name. -/
def sessCachedC3 : Session := { sessStoredC3 with name := "cached".toList }

/-- A manager state whose cache disagrees with its storage. -/
def mgrC3 : ManagerState :=
  { storage := [ ( "s1".toList, sessStoredC3) ],
    cache := [ ( "s1".toList, sessCachedC3) ] }

/-- A concrete session used against `Storage.Update`. -/
def sessC4 : Session :=
  { id := "u1".toList, workingDir := "/tmp/w".toList, name := "u".toList,
    createdAt := 0, updatedAt := 0 }

/-- The stored version of `sessC4`: same id, older creation time. -/
def sessC4stored : Session := { sessC4 with createdAt := 3 }

/-- A one-row table holding `sessC4stored`. -/
def storeC4 : List (GoStr × Session) := [ ( "u1".toList, sessC4stored) ]

/-- A concrete four-message conversation (timestamps 100..103). -/
def convC5 : List Message :=
  [ NewUserMessage ( "U1".toList) 100, NewAssistantMessage ( "A1".toList) 101,
    NewUserMessage ( "U2".toList) 102, NewAssistantMessage ( "A2".toList) 103 ]

/-- A concrete session holding `convC5`. -/
def sessC5 : Session :=
  { id := "s5".toList, workingDir := "/tmp/w".toList, name := "Chat".toList,
    createdAt := 0, updatedAt := 0, messageCount := 4, conversation := convC5 }

/-- A manager state holding only `sessC5` in storage. -/
def mgrC5 : ManagerState := { storage := [ ( "s5".toList, sessC5) ], cache := [] }

/-- An import input carrying junk in every discarded field. -/
def inputC9 : Session :=
  { id := "old-id".toList, workingDir := "/tmp/w".toList, name := "Imported".toList,
    createdAt := 11, updatedAt := 12,
    extensionData := [ ( "k".toList, "v".toList) ],
    messageCount := 99,
    conversation := [ NewUserMessage ( "hi".toList) 1 ],
    inputTokens := some 5, outputTokens := some 6, totalTokens := some 11,
    accumulatedInputTokens := some 50, accumulatedOutputTokens := some 60,
    accumulatedTotalTokens := some 110,
    providerName := some ( "openai".toList), modelConfig := some ( "mc".toList),
    recipe := some ( "r".toList), scheduleId := some ( "sched".toList),
    sessionType := some .scheduled, userSetName := true }

/-- A persisted job whose running state is non-null. -/
def jobC8 : ScheduledJob :=
  { id := "j1".toList, source := "/tmp/r.yaml".toList, cron := "* * * * *".toList,
    currentlyRunning := true, currentSessionId := some ( "sess-9".toList),
    processStartTime := some 123 }

/-- The text length that makes the mock token estimate reach `2^31 - 100`. -/
def bigLen : Nat := 8589934192

/-- A user message carrying `bigLen` characters of text. -/
def bigMsgC2 : Message := NewUserMessage (List.replicate bigLen 'a') 0

/-- Two `/reply` calls: the oversized message, then an empty batch. -/
def cexCallsC2 : List (List Message × Int × Int) :=
  [ ([bigMsgC2], 0, 0), ([], 0, 0) ]

/-- A fresh session for the `/reply` sequences. -/
def freshSessC2 : Session := NewSession ( "/tmp/w".toList) ( "c2".toList) 0

/-- A small, realistic `/reply` sequence used as a witness. -/
def smallCallsC2 : List (List Message × Int × Int) :=
  [ ([NewUserMessage ( "hi".toList) 0], 0, 0) ]

/-- `jobC8` as the loader re-registers it. -/
def jobC8reset : ScheduledJob :=
  { jobC8 with currentlyRunning := false, currentSessionId := none,
               processStartTime := none }

/-- An extension config whose name is not yet in normal form. -/
def cfgC10 : ExtensionConfig := { type := .platform, name := "My Ext".toList }

/-- The session produced by importing `inputC9` under id `new-id` at t=42. -/
def sessImportedC9 : Session :=
  { id := "new-id".toList, workingDir := inputC9.workingDir, name := inputC9.name,
    createdAt := 42, updatedAt := 42, extensionData := inputC9.extensionData,
    messageCount := 1, conversation := inputC9.conversation,
    sessionType := some .user }

/-- The manager state after importing `inputC9` into an empty store. -/
def mgrC9after : ManagerState :=
  { storage := [ ( "new-id".toList, sessImportedC9) ], cache := [] }

/-- The state returned alongside `sessC5` by a conversation-loading get. -/
def mgrC5got : ManagerState :=
  { storage := [ ( "s5".toList, sessC5) ], cache := [ ( "s5".toList, sessC5) ] }

/-- The fork of `sessC5` before index 2. -/
def sessFork5 : Session :=
  { id := "f5".toList, workingDir := "/tmp/w".toList, name := "Chat (fork)".toList,
    createdAt := 9, updatedAt := 9, messageCount := 2,
    conversation := [ NewUserMessage ( "U1".toList) 100,
                      NewAssistantMessage ( "A1".toList) 101 ],
    sessionType := some .user }

/-- The manager state after the fork: the new session lives in the cache
only, the storage table is untouched. -/
def mgrC5forked : ManagerState :=
  { storage := [ ( "s5".toList, sessC5) ],
    cache := [ ( "f5".toList, sessFork5), ( "s5".toList, sessC5) ] }

/-! ## Helper lemmas -/

theorem char_toNat_ofNat_lt (n : Nat) (h : n < 55296) : (Char.ofNat n).toNat = n := by
  unfold Char.ofNat
  split
  · rfl
  · next hn => exact absurd (Or.inl h) hn

theorem goToLower_fix (c : Char) (h : ¬(65 ≤ c.toNat ∧ c.toNat ≤ 90)) :
    goToLower c = c := by
  simp [goToLower, h]

theorem goToLower_toNat_upper (c : Char) (h : 65 ≤ c.toNat ∧ c.toNat ≤ 90) :
    (goToLower c).toNat = c.toNat + 32 := by
  simp only [goToLower, if_pos h]
  exact char_toNat_ofNat_lt _ (by omega)

theorem goToLower_idem (c : Char) : goToLower (goToLower c) = goToLower c := by
  by_cases h : 65 ≤ c.toNat ∧ c.toNat ≤ 90
  · exact goToLower_fix _ (by have := goToLower_toNat_upper c h; omega)
  · rw [goToLower_fix c h, goToLower_fix c h]

theorem goToLower_not_upper (c : Char) : isAsciiUpper (goToLower c) = false := by
  by_cases h : 65 ≤ c.toNat ∧ c.toNat ≤ 90
  · have := goToLower_toNat_upper c h
    simp [isAsciiUpper]
    omega
  · rw [goToLower_fix c h]
    simp [isAsciiUpper]
    omega

theorem goToLower_toNat_ne (c : Char) (n : Nat) (hn : n < 65)
    (h : c.toNat ≠ n) : (goToLower c).toNat ≠ n := by
  by_cases hu : 65 ≤ c.toNat ∧ c.toNat ≤ 90
  · have := goToLower_toNat_upper c hu
    omega
  · rw [goToLower_fix c hu]
    exact h

theorem char_toNat_injective (c d : Char) (h : c.toNat = d.toNat) : c = d := by
  apply Char.eq_of_val_eq
  exact UInt32.toNat.inj h

theorem char_eq_iff_toNat (c d : Char) : c = d ↔ c.toNat = d.toNat :=
  ⟨fun h => by rw [h], char_toNat_injective c d⟩

theorem notWhitespace_goToLower (c : Char)
    (h : (!(c = ' ' || c = '\t' || c = '\n' || c = '\r')) = true) :
    (!(goToLower c = ' ' || goToLower c = '\t' || goToLower c = '\n'
       || goToLower c = '\r')) = true := by
  simp only [Bool.not_eq_true', Bool.or_eq_false_iff, decide_eq_false_iff_not] at h ⊢
  obtain ⟨⟨⟨h1, h2⟩, h3⟩, h4⟩ := h
  rw [char_eq_iff_toNat] at h1 h2 h3 h4
  rw [char_eq_iff_toNat (goToLower c), char_eq_iff_toNat (goToLower c),
    char_eq_iff_toNat (goToLower c), char_eq_iff_toNat (goToLower c)]
  exact ⟨⟨⟨goToLower_toNat_ne c _ (by decide) h1, goToLower_toNat_ne c _ (by decide) h2⟩,
    goToLower_toNat_ne c _ (by decide) h3⟩, goToLower_toNat_ne c _ (by decide) h4⟩

theorem nameToKey_idem (s : GoStr) : NameToKey (NameToKey s) = NameToKey s := by
  have hmem : ∀ c ∈ (s.filter
      (fun r => !(r = ' ' || r = '\t' || r = '\n' || r = '\r'))).map goToLower,
      (!(c = ' ' || c = '\t' || c = '\n' || c = '\r')) = true := by
    intro c hc
    obtain ⟨c₀, hc₀, rfl⟩ := List.mem_map.mp hc
    exact notWhitespace_goToLower c₀ ((List.mem_filter.mp hc₀).2)
  unfold NameToKey strToLower
  rw [List.filter_eq_self.mpr hmem, List.map_map]
  exact List.map_congr_left (fun a _ => goToLower_idem a)

theorem nameToKey_chars (s : GoStr) (c : Char) (hc : c ∈ NameToKey s) :
    isAsciiUpper c = false ∧ c ≠ ' ' ∧ c ≠ '\t' ∧ c ≠ '\n' ∧ c ≠ '\r' := by
  unfold NameToKey strToLower at hc
  obtain ⟨c₀, hc₀, rfl⟩ := List.mem_map.mp hc
  have hw := notWhitespace_goToLower c₀ ((List.mem_filter.mp hc₀).2)
  simp only [Bool.not_eq_true', Bool.or_eq_false_iff, decide_eq_false_iff_not] at hw
  exact ⟨goToLower_not_upper c₀, hw.1.1.1, hw.1.1.2, hw.1.2, hw.2⟩

theorem lookupA_cons (p : GoStr × Session) (l : List (GoStr × Session)) (i : GoStr) :
    lookupA (p :: l) i = if p.1 = i then some p.2 else lookupA l i := by
  by_cases h : p.1 = i <;> simp [lookupA, List.find?_cons, h]

theorem overwriteRows_cons (p : GoStr × Session) (l : List (GoStr × Session))
    (sess : Session) (now : Int) :
    overwriteRows (p :: l) sess now =
      (if p.1 = sess.id then
        (p.1, { sess with createdAt := p.2.createdAt, updatedAt := now })
      else p)
        :: overwriteRows l sess now := by
  by_cases h : p.1 = sess.id <;> simp [overwriteRows, h]

/-! ## Claim C1 -/

/-- C1: every `Notification` MessageEvent serialises its inner
`ServerNotification` under the JSON key `message` (not `notification`),
alongside the `type` tag and `request_id`, and nothing else. -/
theorem claim_C1_notification_serialises_as_message (e : MessageEvent)
    (h : e.type = .Notification) :
    MessageEvent.MarshalJSON e =
      [ (keyType, .tag .Notification), (keyRequestId, .str e.requestID),
        (keyMessage, .raw e.notificationMessage) ]
    ∧ (MessageEvent.MarshalJSON e).map Prod.fst = [ keyType, keyRequestId, keyMessage ]
    ∧ keyNotificationField ∉ (MessageEvent.MarshalJSON e).map Prod.fst := by
  have h1 : MessageEvent.MarshalJSON e =
      [ (keyType, .tag .Notification), (keyRequestId, .str e.requestID),
        (keyMessage, .raw e.notificationMessage) ] := by
    simp only [MessageEvent.MarshalJSON, h]
  refine ⟨h1, ?_, ?_⟩
  · rw [h1]
    rfl
  · rw [h1]
    simp only [List.map_cons, List.map_nil]
    decide

/-- Witness for C1 at a concrete notification event. -/
theorem claim_C1_witness :
    eventC1.type = .Notification
    ∧ MessageEvent.MarshalJSON eventC1 =
      [ (keyType, .tag .Notification), (keyRequestId, .str eventC1.requestID),
        (keyMessage, .raw eventC1.notificationMessage) ] :=
  ⟨rfl, (claim_C1_notification_serialises_as_message eventC1 rfl).1⟩

/-! ## Claim C3 -/

/-- C3 counterexample: with a stale cached copy, `Get(id, false)` returns
the cached data, not the result of the storage read — the claim that its
result never depends on the cache is false at this state. -/
theorem claim_C3_counterexample :
    (managerGet mgrC3 ( "s1".toList) false).1
      ≠ storageGet mgrC3.storage ( "s1".toList) false := by
  decide

/-- C3 amended: `Get(id, false)` never populates the cache and leaves the
whole manager state unchanged; on a cache miss it returns the storage read
with the conversation column not decoded, but on a cache hit it returns a
copy of the cached session with the conversation stripped (so the result
can depend on the cache contents). -/
theorem claim_C3_amended_get_without_conversation (m : ManagerState) (id : GoStr) :
    (managerGet m id false).2 = m
    ∧ (lookupA m.cache id = none →
        (managerGet m id false).1 = storageGet m.storage id false)
    ∧ (∀ s, lookupA m.cache id = some s →
        (managerGet m id false).1 = some { s with conversation := [] }) := by
  refine ⟨?_, ?_, ?_⟩
  · cases h : lookupA m.cache id with
    | some s => simp [managerGet, h]
    | none =>
      cases h2 : storageGet m.storage id false with
      | none => simp [managerGet, h, h2]
      | some s => simp [managerGet, h, h2]
  · intro h
    cases h2 : storageGet m.storage id false <;> simp [managerGet, h, h2]
  · intro s h
    simp [managerGet, h]

/-- Witness for the amended C3 at the concrete divergent state. -/
theorem claim_C3_witness :
    lookupA mgrC3.cache ( "s1".toList) = some sessCachedC3
    ∧ (managerGet mgrC3 ( "s1".toList) false).1
        = some { sessCachedC3 with conversation := [] } :=
  ⟨by decide,
   (claim_C3_amended_get_without_conversation mgrC3 ( "s1".toList)).2.2
     sessCachedC3 (by decide)⟩

/-! ## Claim C4 -/

/-- C4 counterexample: `Storage.Update` on an empty table (no row with the
session's id) still reports success — the claim that it fails whenever the
row does not exist is false. -/
theorem claim_C4_counterexample :
    lookupA ([] : List (GoStr × Session)) sessC4.id = none
    ∧ storageUpdate [] sessC4 7 = .ok ([], { sessC4 with updatedAt := 7 }) :=
  ⟨rfl, rfl⟩

/-- C4 amended: `update(session)` overwrites every column of the matching
row from the passed record — all columns of the SQL `SET` list, which
excludes `id` and `created_at`, so the stored creation time is preserved —
and sets `updatedAt` to the current time server-side; it reports success
whether or not a row with the session's id exists (`RowsAffected` is never
checked).  When the row is missing the table is unchanged; other rows are
untouched. -/
theorem claim_C4_amended_update_never_fails (st : List (GoStr × Session))
    (sess : Session) (now : Int) :
    storageUpdate st sess now
      = .ok (overwriteRows st sess now, { sess with updatedAt := now })
    ∧ (lookupA st sess.id = none → overwriteRows st sess now = st)
    ∧ (∀ r, lookupA st sess.id = some r →
        lookupA (overwriteRows st sess now) sess.id
          = some { sess with createdAt := r.createdAt, updatedAt := now })
    ∧ (∀ other, ¬ other = sess.id →
        lookupA (overwriteRows st sess now) other = lookupA st other) := by
  refine ⟨rfl, ?_, ?_, ?_⟩
  · induction st with
    | nil => intro _; rfl
    | cons p l ih =>
      intro h
      rw [lookupA_cons] at h
      by_cases hp : p.1 = sess.id
      · simp [hp] at h
      · rw [overwriteRows_cons, if_neg hp, ih (by simpa [hp] using h)]
  · induction st with
    | nil =>
      intro r hr
      exact absurd hr (by simp [lookupA])
    | cons p l ih =>
      intro r hr
      rw [lookupA_cons] at hr
      rw [overwriteRows_cons, lookupA_cons]
      by_cases hp : p.1 = sess.id
      · rw [if_pos hp] at hr
        obtain rfl := Option.some.inj hr
        simp [hp]
      · rw [if_neg hp] at hr
        rw [if_neg hp]
        rw [if_neg hp]
        exact ih r hr
  · intro other hother
    induction st with
    | nil => rfl
    | cons p l ih =>
      rw [overwriteRows_cons, lookupA_cons, lookupA_cons]
      by_cases hp : p.1 = sess.id
      · have hpo : ¬ p.1 = other := fun hh => hother (hh.symm.trans hp)
        simp only [if_pos hp, if_neg hpo, ih]
      · simp only [if_neg hp]
        by_cases ho : p.1 = other
        · simp only [if_pos ho]
        · simp only [if_neg ho, ih]

/-- Witness for the amended C4: updating an existing row overwrites its
columns but keeps the stored creation time. -/
theorem claim_C4_witness :
    lookupA storeC4 sessC4.id = some sessC4stored
    ∧ lookupA (overwriteRows storeC4 sessC4 7) sessC4.id
        = some { sessC4 with createdAt := sessC4stored.createdAt, updatedAt := 7 } :=
  ⟨by decide,
   (claim_C4_amended_update_never_fails storeC4 sessC4 7).2.2.1 sessC4stored
     (by decide)⟩

/-! ## Claim C7 -/

theorem envKeyDisallowed_iff (key : GoStr) :
    IsEnvKeyDisallowed key = true ↔ strToLower key ∈ DisallowedEnvKeys.map strToLower := by
  simp only [IsEnvKeyDisallowed, List.any_eq_true, List.mem_map, decide_eq_true_eq]

/-- C7: `ValidateEnvs` keeps exactly the pairs whose key is not in the
disallowed set; membership in the set is decided case-insensitively; and a
single-entry map whose key is any letter casing of a disallowed key maps to
the empty map. -/
theorem claim_C7_env_sanitation :
    (∀ envs kv, kv ∈ ValidateEnvs envs ↔ (kv ∈ envs ∧ IsEnvKeyDisallowed kv.1 = false))
    ∧ (∀ key, IsEnvKeyDisallowed key = true
        ↔ strToLower key ∈ DisallowedEnvKeys.map strToLower)
    ∧ (∀ key x, strToLower key ∈ DisallowedEnvKeys.map strToLower →
        ValidateEnvs [ (key, x) ] = []) := by
  refine ⟨?_, envKeyDisallowed_iff, ?_⟩
  · intro envs kv
    simp [ValidateEnvs, List.mem_filter]
  · intro key x h
    have hd := (envKeyDisallowed_iff key).mpr h
    simp [ValidateEnvs, hd]

/-- Witness for C7: a mixed-casing `PATH` entry is dropped entirely. -/
theorem claim_C7_witness :
    strToLower ( "PaTh".toList) ∈ DisallowedEnvKeys.map strToLower
    ∧ ValidateEnvs [ ( "PaTh".toList, "x".toList) ] = [] :=
  ⟨by decide, claim_C7_env_sanitation.2.2 ( "PaTh".toList) ( "x".toList) (by decide)⟩

/-! ## Claim C8 -/

theorem loadStep_invariant (se ck : GoStr → Bool)
    (acc : List (GoStr × ScheduledJob)) (job : ScheduledJob)
    (hacc : ∀ p ∈ acc, p.2.currentlyRunning = false ∧ p.2.currentSessionId = none
      ∧ p.2.processStartTime = none) :
    ∀ p ∈ loadStep se ck acc job,
      p.2.currentlyRunning = false ∧ p.2.currentSessionId = none
        ∧ p.2.processStartTime = none := by
  intro p hp
  unfold loadStep at hp
  by_cases h1 : se job.source
  · rw [if_pos h1] at hp
    by_cases h2 : ck (normalizeCron job.cron)
    · rw [if_pos h2] at hp
      unfold insertJob at hp
      rcases List.mem_cons.mp hp with h | h
      · subst h
        exact ⟨rfl, rfl, rfl⟩
      · exact hacc p (List.mem_of_mem_filter h)
    · rw [if_neg h2] at hp
      exact hacc p hp
  · rw [if_neg h1] at hp
    exact hacc p hp

theorem loadFoldl_invariant (se ck : GoStr → Bool) :
    ∀ (jobs : List ScheduledJob) (acc : List (GoStr × ScheduledJob)),
      (∀ p ∈ acc, p.2.currentlyRunning = false ∧ p.2.currentSessionId = none
        ∧ p.2.processStartTime = none) →
      ∀ p ∈ jobs.foldl (loadStep se ck) acc,
        p.2.currentlyRunning = false ∧ p.2.currentSessionId = none
          ∧ p.2.processStartTime = none := by
  intro jobs
  induction jobs with
  | nil => intro acc hacc; exact hacc
  | cons j rest ih =>
    intro acc hacc
    rw [List.foldl_cons]
    exact ih _ (loadStep_invariant se ck acc j hacc)

/-- C8: after the scheduler loads jobs from the persistence file, every
registered job has `currentlyRunning = false`, `currentSessionId = null`
and `processStartTime = null`, regardless of the persisted values. -/
theorem claim_C8_load_zeroes_running_state (jobs : List ScheduledJob)
    (sourceExists cronOk : GoStr → Bool) (p : GoStr × ScheduledJob)
    (hp : p ∈ loadFromStorage jobs sourceExists cronOk) :
    p.2.currentlyRunning = false ∧ p.2.currentSessionId = none
      ∧ p.2.processStartTime = none := by
  unfold loadFromStorage at hp
  exact loadFoldl_invariant sourceExists cronOk jobs [] (by simp) p hp

/-- Witness for C8 at a persisted job with non-null running fields. -/
theorem claim_C8_witness :
    ( ( "j1".toList, jobC8reset)
        ∈ loadFromStorage [jobC8] (fun _ => true) (fun _ => true))
    ∧ jobC8reset.currentlyRunning = false ∧ jobC8reset.currentSessionId = none
      ∧ jobC8reset.processStartTime = none :=
  ⟨by decide,
   claim_C8_load_zeroes_running_state [jobC8] (fun _ => true) (fun _ => true)
     ( ( "j1".toList, jobC8reset)) (by decide)⟩

/-! ## Claim C10 -/

/-- C10: `NameToKey` is idempotent; its output contains no ASCII uppercase
letter and none of space, tab, newline, carriage return; and `AddExtension`
preserves the invariant that every key of the extension map is in this
normal form. -/
theorem claim_C10_name_to_key_normal_form :
    (∀ s, NameToKey (NameToKey s) = NameToKey s)
    ∧ (∀ s c, c ∈ NameToKey s →
        isAsciiUpper c = false ∧ c ≠ ' ' ∧ c ≠ '\t' ∧ c ≠ '\n' ∧ c ≠ '\r')
    ∧ (∀ keys config clientOk keys',
        addExtensionKey keys config clientOk = .ok keys' →
        (∀ k ∈ keys, NameToKey k = k) → (∀ k ∈ keys', NameToKey k = k)) := by
  refine ⟨nameToKey_idem, nameToKey_chars, ?_⟩
  intro keys config clientOk keys' hok hkeys k hk
  unfold addExtensionKey at hok
  by_cases hmem : config.Key ∈ keys
  · simp [hmem] at hok
  · by_cases hc : clientOk
    · have hcf : keys.contains config.Key = false := by simpa using hmem
      simp only [hcf, Bool.false_eq_true, if_false, hc, if_true,
        Except.ok.injEq] at hok
      subst hok
      rcases List.mem_cons.mp hk with h | h
      · subst h
        exact nameToKey_idem config.name
      · exact hkeys k h
    · simp [hmem, hc] at hok

/-- Witness for C10: adding an extension with a denormalised name yields a
map whose single key is in normal form. -/
theorem claim_C10_witness :
    addExtensionKey [] cfgC10 true = .ok [ NameToKey cfgC10.name ]
    ∧ (∀ k ∈ [ NameToKey cfgC10.name ], NameToKey k = k) :=
  ⟨rfl,
   claim_C10_name_to_key_normal_form.2.2 [] cfgC10 true _ rfl
     (fun k hk => absurd hk (List.not_mem_nil k))⟩

/-! ## Claim C9 -/

/-- C9: every session accepted by Import gets the freshly generated id,
`sessionType = user`, `messageCount = len(conversation)`, carries over only
`workingDir`, `name`, `conversation` and `extensionData` from the input,
and leaves every token field, `providerName`, `modelConfig`, `recipe` and
`scheduleId` at the new-session defaults; it is then stored under the
fresh id. -/
theorem claim_C9_import_regenerates_and_discards (m : ManagerState)
    (input : Session) (freshId : GoStr) (now : Int) (m' : ManagerState)
    (s' : Session) (h : managerImport m input freshId now = .ok (m', s')) :
    s' = { id := freshId, workingDir := input.workingDir, name := input.name,
           createdAt := now, updatedAt := now,
           extensionData := input.extensionData,
           messageCount := input.conversation.length,
           conversation := input.conversation,
           inputTokens := none, outputTokens := none, totalTokens := none,
           accumulatedInputTokens := none, accumulatedOutputTokens := none,
           accumulatedTotalTokens := none, providerName := none,
           modelConfig := none, recipe := none, scheduleId := none,
           sessionType := some .user, userRecipeValues := [],
           userSetName := false }
    ∧ lookupA m'.storage freshId = some s' := by
  have hid : (NewSession input.workingDir freshId now).id = freshId := rfl
  simp only [managerImport, storageCreate, hid] at h
  by_cases hl : (lookupA m.storage freshId).isSome = true
  · rw [if_pos hl] at h
    exact absurd h (by simp)
  · rw [if_neg hl] at h
    simp only [Except.ok.injEq, Prod.mk.injEq] at h
    obtain ⟨hm, hs⟩ := h
    subst hm
    subst hs
    refine ⟨rfl, ?_⟩
    rw [lookupA_cons]
    simp

/-- Witness for C9 at a concrete import whose input carries junk in every
discarded field. -/
theorem claim_C9_witness :
    managerImport { storage := [], cache := [] } inputC9 ( "new-id".toList) 42
      = .ok (mgrC9after, sessImportedC9)
    ∧ sessImportedC9 =
        { id := "new-id".toList, workingDir := inputC9.workingDir,
          name := inputC9.name, createdAt := 42, updatedAt := 42,
          extensionData := inputC9.extensionData,
          messageCount := inputC9.conversation.length,
          conversation := inputC9.conversation,
          inputTokens := none, outputTokens := none, totalTokens := none,
          accumulatedInputTokens := none, accumulatedOutputTokens := none,
          accumulatedTotalTokens := none, providerName := none,
          modelConfig := none, recipe := none, scheduleId := none,
          sessionType := some .user, userRecipeValues := [],
          userSetName := false } :=
  ⟨by rfl,
   (claim_C9_import_regenerates_and_discards { storage := [], cache := [] }
     inputC9 ( "new-id".toList) 42 mgrC9after sessImportedC9 (by rfl)).1⟩

/-! ## Claim C5 -/

theorem lookupA_insertA_self (l : List (GoStr × Session)) (id : GoStr) (s : Session) :
    lookupA (insertA l id s) id = some s := by
  unfold insertA
  rw [lookupA_cons]
  simp

theorem lookupA_insertA_ne (l : List (GoStr × Session)) (id : GoStr) (s : Session)
    (other : GoStr) (h : ¬ id = other) :
    lookupA (insertA l id s) other = lookupA l other := by
  unfold insertA
  rw [lookupA_cons, if_neg h]
  induction l with
  | nil => rfl
  | cons p rest ih =>
    rw [List.filter_cons]
    by_cases hp : p.1 = id
    · have hpo : ¬ p.1 = other := fun hh => h (hp.symm.trans hh)
      simp [lookupA_cons, hp, hpo, h, ih]
    · by_cases ho : p.1 = other
      · have hoi : ¬ other = id := fun hh => h hh.symm
        simp [lookupA_cons, hp, ho, hoi]
      · simp [lookupA_cons, hp, ho, ih]

theorem managerGet_true_caches (m : ManagerState) (id : GoStr) (s : Session)
    (m1 : ManagerState) (h : managerGet m id true = (some s, m1)) :
    lookupA m1.cache id = some s := by
  unfold managerGet at h
  cases hc : lookupA m.cache id with
  | some s0 =>
    rw [hc] at h
    simp only [Prod.mk.injEq, Option.some.injEq] at h
    obtain ⟨hs, hm⟩ := h
    subst hs
    subst hm
    simpa using hc
  | none =>
    rw [hc] at h
    cases hs : storageGet m.storage id true with
    | none =>
      rw [hs] at h
      simp at h
    | some s0 =>
      rw [hs] at h
      simp only [if_true, Prod.mk.injEq, Option.some.injEq] at h
      obtain ⟨hss, hm⟩ := h
      subst hss
      subst hm
      exact lookupA_insertA_self m.cache id _

/-- C5: after `editType=fork` at the first index k matching the timestamp,
the new session is retrievable under the fresh id with exactly the first k
messages and `messageCount = k`, the original session is retrievable under
its id with its conversation unchanged (in particular the messages at and
after index k are preserved). -/
theorem claim_C5_edit_message_fork (m : ManagerState) (sessionId : GoStr)
    (timestamp : Int) (freshId : GoStr) (now : Int) (sess : Session)
    (m1 : ManagerState) (k : Nat) (m2 : ManagerState) (rid : GoStr)
    (hget : managerGet m sessionId true = (some sess, m1))
    (hfind : findMessageIdx sess.conversation timestamp = some k)
    (hfresh : ¬ freshId = sessionId)
    (hedit : editMessageFork m sessionId timestamp freshId now = some (m2, rid)) :
    rid = freshId
    ∧ (∃ ns, (managerGet m2 freshId true).1 = some ns
        ∧ ns.conversation = sess.conversation.take k ∧ ns.messageCount = k)
    ∧ (managerGet m2 sessionId true).1 = some sess
    ∧ sess.conversation
        = sess.conversation.take k ++ sess.conversation.drop k := by
  unfold editMessageFork at hedit
  rw [hget] at hedit
  dsimp only [] at hedit
  rw [hfind] at hedit
  dsimp only [managerUpdate, storageUpdate] at hedit
  simp only [Option.some.injEq, Prod.mk.injEq] at hedit
  obtain ⟨hm2, hrid⟩ := hedit
  subst hm2
  subst hrid
  refine ⟨rfl, ⟨forkSession sess freshId now k, ?_, rfl, rfl⟩, ?_,
    (List.take_append_drop k sess.conversation).symm⟩
  · have hlk : lookupA (insertA m1.cache (forkSession sess freshId now k).id
        { forkSession sess freshId now k with updatedAt := now }) freshId
        = some (forkSession sess freshId now k) :=
      lookupA_insertA_self m1.cache freshId (forkSession sess freshId now k)
    simp only [managerGet, hlk]
    simp
  · have hne : lookupA (insertA m1.cache (forkSession sess freshId now k).id
        { forkSession sess freshId now k with updatedAt := now }) sessionId
        = lookupA m1.cache sessionId :=
      lookupA_insertA_ne m1.cache freshId
        ({ forkSession sess freshId now k with updatedAt := now }) sessionId hfresh
    have hc := hne.trans (managerGet_true_caches m sessionId sess m1 hget)
    simp only [managerGet, hc]
    simp

/-- Witness for C5: forking the four-message session at timestamp 102
(index 2) leaves the original intact and makes both sessions retrievable. -/
theorem claim_C5_witness :
    managerGet mgrC5 ( "s5".toList) true = (some sessC5, mgrC5got)
    ∧ findMessageIdx sessC5.conversation 102 = some 2
    ∧ editMessageFork mgrC5 ( "s5".toList) 102 ( "f5".toList) 9
        = some (mgrC5forked, "f5".toList)
    ∧ (managerGet mgrC5forked ( "s5".toList) true).1 = some sessC5
    ∧ (∃ ns, (managerGet mgrC5forked ( "f5".toList) true).1 = some ns
        ∧ ns.conversation = sessC5.conversation.take 2 ∧ ns.messageCount = 2) :=
  ⟨by decide, by decide, by decide,
   (claim_C5_edit_message_fork mgrC5 ( "s5".toList) 102 ( "f5".toList) 9 sessC5
     mgrC5got 2 mgrC5forked ( "f5".toList) (by decide) (by decide) (by decide)
     (by decide)).2.2.1,
   (claim_C5_edit_message_fork mgrC5 ( "s5".toList) 102 ( "f5".toList) 9 sessC5
     mgrC5got 2 mgrC5forked ( "f5".toList) (by decide) (by decide) (by decide)
     (by decide)).2.1⟩

/-! ## Claim C6 -/

theorem splitOnFirstDU_sound : ∀ (s a b : GoStr), splitOnFirstDU s = some (a, b) →
    s = a ++ [ '_', '_' ] ++ b ∧ hasDoubleUS a = false ∧ a.getLast? ≠ some '_' := by
  intro s
  induction s with
  | nil => intro a b h; simp [splitOnFirstDU] at h
  | cons c s ih =>
    intro a b h
    cases s with
    | nil => simp [splitOnFirstDU] at h
    | cons d rest =>
      by_cases hcd : c = '_' ∧ d = '_'
      · rw [splitOnFirstDU, if_pos hcd] at h
        simp only [Option.some.injEq, Prod.mk.injEq] at h
        obtain ⟨ha, hb⟩ := h
        subst ha
        subst hb
        exact ⟨by simp [hcd.1, hcd.2], rfl, by simp⟩
      · rw [splitOnFirstDU, if_neg hcd] at h
        cases hs : splitOnFirstDU (d :: rest) with
        | none => rw [hs] at h; simp at h
        | some p =>
          obtain ⟨p1, p2⟩ := p
          rw [hs] at h
          simp only [Option.map_some', Option.some.injEq, Prod.mk.injEq] at h
          obtain ⟨ha, hb⟩ := h
          subst ha
          subst hb
          obtain ⟨heq, hdu, hlast⟩ := ih p1 p2 hs
          refine ⟨by rw [List.cons_append, heq]; simp, ?_, ?_⟩
          · cases p1 with
            | nil => rfl
            | cons x xs =>
              have hxd : x = d := by
                have hh : d :: rest = x :: (xs ++ [ '_', '_' ] ++ p2) := by
                  simpa using heq
                simpa using (congrArg List.head? hh).symm
              rw [hasDoubleUS]
              simp only [hdu, Bool.or_false, decide_eq_false_iff_not]
              intro hcx
              exact hcd ⟨hcx.1, hxd ▸ hcx.2⟩
          · cases p1 with
            | nil =>
              have hd : d = '_' := by
                have hh : d :: rest = '_' :: ( '_' :: p2) := by simpa using heq
                simpa using congrArg List.head? hh
              simp only [List.getLast?_singleton]
              intro hc
              exact hcd ⟨Option.some.inj hc, hd⟩
            | cons x xs =>
              rw [List.getLast?_cons_cons]
              exact hlast

theorem splitOnFirstDU_roundtrip : ∀ (k t : GoStr), hasDoubleUS k = false →
    k.getLast? ≠ some '_' →
    splitOnFirstDU (k ++ [ '_', '_' ] ++ t) = some (k, t) := by
  intro k
  induction k with
  | nil =>
    intro t _ _
    simp [splitOnFirstDU]
  | cons c k' ih =>
    intro t hdu hlast
    cases k' with
    | nil =>
      have hc : ¬ c = '_' := by
        intro hc
        exact hlast (by simp [hc])
      simp only [List.cons_append, List.nil_append]
      rw [splitOnFirstDU, if_neg (fun hh => hc hh.1)]
      simp [splitOnFirstDU]
    | cons d k'' =>
      have hcd : ¬ (c = '_' ∧ d = '_') := by
        intro hh
        rw [hasDoubleUS] at hdu
        simp [hh.1, hh.2] at hdu
      have hdu' : hasDoubleUS (d :: k'') = false := by
        rw [hasDoubleUS] at hdu
        exact (Bool.or_eq_false_iff.mp hdu).2
      have hlast' : (d :: k'').getLast? ≠ some '_' := by
        rw [List.getLast?_cons_cons] at hlast
        exact hlast
      have ih2 := ih t hdu' hlast'
      simp only [List.cons_append] at ih2
      simp only [List.cons_append]
      rw [splitOnFirstDU, if_neg hcd, ih2]
      rfl

/-- C6 counterexample: the key `a_` and tool name `t` contain no `__`, yet
the round trip fails: `a_` + `__` + `t` = `a___t`, whose first `__` sits at
index 1, so parsing yields `(a, _t)`. -/
theorem claim_C6_counterexample :
    hasDoubleUS ( "a_".toList) = false
    ∧ hasDoubleUS ( "t".toList) = false
    ∧ ParsePrefixedToolName (PrefixToolName ( "a_".toList) ( "t".toList))
        = some ( "a".toList, "_t".toList)
    ∧ ParsePrefixedToolName (PrefixToolName ( "a_".toList) ( "t".toList))
        ≠ some ( "a_".toList, "t".toList) := by
  refine ⟨by decide, by decide, by decide, by decide⟩

/-- C6 amended: `CallTool` splits the prefixed name at the first `__` (the
parsed key contains no `__` and does not end in `_`), and the round trip
`ParsePrefixedToolName (PrefixToolName k t) = (k, t)` holds for every key
`k` and tool name `t` that contain no `__`, provided additionally that `k`
does not end in `_`. -/
theorem claim_C6_amended_tool_prefix_roundtrip :
    (∀ s a b, ParsePrefixedToolName s = some (a, b) →
      s = PrefixToolName a b ∧ hasDoubleUS a = false ∧ a.getLast? ≠ some '_')
    ∧ (∀ k t, hasDoubleUS k = false → hasDoubleUS t = false →
        k.getLast? ≠ some '_' →
        ParsePrefixedToolName (PrefixToolName k t) = some (k, t)) := by
  constructor
  · intro s a b h
    exact splitOnFirstDU_sound s a b h
  · intro k t hk _ hlast
    exact splitOnFirstDU_roundtrip k t hk hlast

/-- Witness for the amended C6 at a concrete key and tool name. -/
theorem claim_C6_witness :
    hasDoubleUS ( "developer".toList) = false
    ∧ hasDoubleUS ( "shell".toList) = false
    ∧ ( "developer".toList : GoStr).getLast? ≠ some '_'
    ∧ ParsePrefixedToolName (PrefixToolName ( "developer".toList) ( "shell".toList))
        = some ( "developer".toList, "shell".toList) :=
  ⟨by decide, by decide, by decide,
   claim_C6_amended_tool_prefix_roundtrip.2 ( "developer".toList) ( "shell".toList)
     (by decide) (by decide) (by decide)⟩

/-! ## Claim C2 -/

theorem replyCall_eq (sess : Session) (msgs : List Message) (created now : Int) :
    replyCall sess msgs created now =
      { sess with
        conversation := sess.conversation ++ msgs
          ++ [ NewAssistantMessage
                (generateMockResponse (sess.conversation ++ msgs)) created ]
        messageCount := (sess.conversation ++ msgs
          ++ [ NewAssistantMessage
                (generateMockResponse (sess.conversation ++ msgs)) created ]).length
        updatedAt := now
        inputTokens := some (mockTokenState (sess.conversation ++ msgs)).inputTokens
        outputTokens := some (mockTokenState (sess.conversation ++ msgs)).outputTokens
        totalTokens := some (mockTokenState (sess.conversation ++ msgs)).totalTokens
        accumulatedInputTokens :=
          some (mockTokenState (sess.conversation ++ msgs)).accumulatedInputTokens
        accumulatedOutputTokens :=
          some (mockTokenState (sess.conversation ++ msgs)).accumulatedOutputTokens
        accumulatedTotalTokens :=
          some (mockTokenState (sess.conversation ++ msgs)).accumulatedTotalTokens } :=
  rfl

theorem i32_of_lt (n : Nat) (h : n < 2147483648) : i32 ((n : Nat) : Int) = n := by
  unfold i32
  have h0 : ((n : Nat) : Int) % 4294967296 = n :=
    Int.emod_eq_of_lt (by positivity)
      (by exact_mod_cast lt_trans h (by norm_num))
  rw [h0, if_pos (by exact_mod_cast h)]

theorem messageTextLen_newUser (t : GoStr) (c : Int) :
    messageTextLen (NewUserMessage t c) = t.length := by
  simp [messageTextLen, NewUserMessage, contentTextLen]

theorem messageTextLen_newAssistant (t : GoStr) (c : Int) :
    messageTextLen (NewAssistantMessage t c) = t.length := by
  simp [messageTextLen, NewAssistantMessage, contentTextLen]

theorem conversationTextLen_append (a b : List Message) :
    conversationTextLen (a ++ b) = conversationTextLen a + conversationTextLen b := by
  simp [conversationTextLen]

theorem replyCall_accTotal_raw (sess : Session) (msgs : List Message)
    (created now : Int) :
    accTotal (replyCall sess msgs created now)
      = i32add
          (i32 ((conversationTextLen (sess.conversation ++ msgs) / 4 : Nat) : Int))
          (i32 (((generateMockResponse (sess.conversation ++ msgs)).length / 4
            : Nat) : Int)) := by
  have h1 : (replyCall sess msgs created now).accumulatedTotalTokens
      = some ((mockTokenState (sess.conversation ++ msgs)).accumulatedTotalTokens) :=
    rfl
  unfold accTotal
  rw [h1, Option.getD_some]
  simp only [mockTokenState, estimateTokens]

theorem replyCall_textLen (sess : Session) (msgs : List Message)
    (created now : Int) :
    conversationTextLen (replyCall sess msgs created now).conversation
      = conversationTextLen (sess.conversation ++ msgs)
        + (generateMockResponse (sess.conversation ++ msgs)).length := by
  rw [replyCall_eq]
  show conversationTextLen (sess.conversation ++ msgs
    ++ [ NewAssistantMessage (generateMockResponse (sess.conversation ++ msgs))
          created ]) = _
  rw [conversationTextLen_append]
  simp [conversationTextLen, messageTextLen_newAssistant]

theorem replyCall_msgCount (sess : Session) (msgs : List Message)
    (created now : Int) :
    (replyCall sess msgs created now).messageCount
      = (replyCall sess msgs created now).conversation.length := by
  rw [replyCall_eq]

theorem replyCall_accTotal (sess : Session) (msgs : List Message)
    (created now : Int)
    (hb : conversationTextLen (replyCall sess msgs created now).conversation
      < 8589934592) :
    accTotal (replyCall sess msgs created now)
      = ((conversationTextLen (sess.conversation ++ msgs) / 4
          + (generateMockResponse (sess.conversation ++ msgs)).length / 4
          : Nat) : Int) := by
  rw [replyCall_textLen sess msgs created now] at hb
  rw [replyCall_accTotal_raw]
  have hL : conversationTextLen (sess.conversation ++ msgs) / 4 < 2147483648 := by
    omega
  have hR : (generateMockResponse (sess.conversation ++ msgs)).length / 4
      < 2147483648 := by
    omega
  have hS : conversationTextLen (sess.conversation ++ msgs) / 4
      + (generateMockResponse (sess.conversation ++ msgs)).length / 4
      < 2147483648 := by
    omega
  rw [i32_of_lt _ hL, i32_of_lt _ hR]
  unfold i32add
  rw [show ((conversationTextLen (sess.conversation ++ msgs) / 4 : Nat) : Int)
      + (((generateMockResponse (sess.conversation ++ msgs)).length / 4
        : Nat) : Int)
      = ((conversationTextLen (sess.conversation ++ msgs) / 4
          + (generateMockResponse (sess.conversation ++ msgs)).length / 4
          : Nat) : Int) from by push_cast; ring]
  exact i32_of_lt _ hS

theorem replyCall_link (sess : Session) (msgs : List Message) (created now : Int)
    (hb : conversationTextLen (replyCall sess msgs created now).conversation
      < 8589934592) :
    AccLink (replyCall sess msgs created now) := by
  intro a ha
  have hv : accTotal (replyCall sess msgs created now) = a := by
    unfold accTotal
    rw [ha]
    rfl
  rw [replyCall_accTotal sess msgs created now hb] at hv
  have htl := replyCall_textLen sess msgs created now
  constructor
  · rw [← hv]
    positivity
  · rw [← hv, htl]
    have : conversationTextLen (sess.conversation ++ msgs) / 4
        + (generateMockResponse (sess.conversation ++ msgs)).length / 4
        ≤ (conversationTextLen (sess.conversation ++ msgs)
          + (generateMockResponse (sess.conversation ++ msgs)).length) / 4 := by
      omega
    exact_mod_cast this

theorem replyCall_mono (sess : Session) (msgs : List Message) (created now : Int)
    (hlink : AccLink sess)
    (hb : conversationTextLen (replyCall sess msgs created now).conversation
      < 8589934592) :
    accTotal sess ≤ accTotal (replyCall sess msgs created now) := by
  rw [replyCall_accTotal sess msgs created now hb]
  cases ha : sess.accumulatedTotalTokens with
  | none =>
    unfold accTotal
    rw [ha]
    simp only [Option.getD_none]
    positivity
  | some a =>
    obtain ⟨ha0, halt⟩ := hlink a ha
    unfold accTotal
    rw [ha]
    simp only [Option.getD_some]
    have hmono : conversationTextLen sess.conversation
        ≤ conversationTextLen (sess.conversation ++ msgs) := by
      rw [conversationTextLen_append]
      omega
    calc a ≤ ((conversationTextLen sess.conversation / 4 : Nat) : Int) := halt
      _ ≤ ((conversationTextLen (sess.conversation ++ msgs) / 4 : Nat) : Int) := by
          exact_mod_cast Nat.div_le_div_right hmono
      _ ≤ _ := by exact_mod_cast Nat.le_add_right _ _

theorem replySeq_chain : ∀ (calls : List (List Message × Int × Int)) (sess : Session),
    AccLink sess →
    (∀ s' ∈ replySeqStates sess calls,
      conversationTextLen s'.conversation < 8589934592) →
    List.Chain' (fun a b => accTotal a ≤ accTotal b)
      (sess :: replySeqStates sess calls)
    ∧ (∀ s' ∈ replySeqStates sess calls,
        s'.messageCount = s'.conversation.length) := by
  intro calls
  induction calls with
  | nil =>
    intro sess _ _
    exact ⟨List.chain'_singleton sess, by simp [replySeqStates]⟩
  | cons cl rest ih =>
    obtain ⟨msgs, created, now⟩ := cl
    intro sess hlink hb
    have hstates : replySeqStates sess ((msgs, created, now) :: rest)
        = replyCall sess msgs created now
          :: replySeqStates (replyCall sess msgs created now) rest := rfl
    have hmem1 : replyCall sess msgs created now
        ∈ replySeqStates sess ((msgs, created, now) :: rest) := by
      rw [hstates]
      exact List.mem_cons_self _ _
    have hb1 := hb _ hmem1
    have hlink1 := replyCall_link sess msgs created now hb1
    have hbrest : ∀ s' ∈ replySeqStates (replyCall sess msgs created now) rest,
        conversationTextLen s'.conversation < 8589934592 := by
      intro s' hs'
      exact hb s' (by rw [hstates]; exact List.mem_cons_of_mem _ hs')
    obtain ⟨hchain, hmc⟩ := ih (replyCall sess msgs created now) hlink1 hbrest
    constructor
    · rw [hstates]
      exact List.chain'_cons.mpr
        ⟨replyCall_mono sess msgs created now hlink hb1, hchain⟩
    · intro s' hs'
      rw [hstates] at hs'
      rcases List.mem_cons.mp hs' with h1 | h2
      · subst h1
        exact replyCall_msgCount sess msgs created now
      · exact hmc s' h2

/-- C2 amended: across any finite sequence of `/reply` calls against the
mock provider, as long as the total text length of the conversation stays
below 2^33 characters (so that no `int32` token counter overflows), the
post-call values of `accumulatedTotalTokens` form a non-decreasing chain,
`messageCount` equals the length of the persisted conversation after every
call, and for a session whose accumulated counter starts unset the chain is
non-decreasing from the initial state onward. -/
theorem claim_C2_amended_reply_monotonic (sess : Session)
    (calls : List (List Message × Int × Int))
    (hb : ∀ s' ∈ replySeqStates sess calls,
      conversationTextLen s'.conversation < 8589934592) :
    List.Chain' (fun a b => accTotal a ≤ accTotal b) (replySeqStates sess calls)
    ∧ (∀ s' ∈ replySeqStates sess calls,
        s'.messageCount = s'.conversation.length)
    ∧ (sess.accumulatedTotalTokens = none →
        List.Chain' (fun a b => accTotal a ≤ accTotal b)
          (sess :: replySeqStates sess calls)) := by
  have hnone_case : sess.accumulatedTotalTokens = none → AccLink sess := by
    intro hnone a ha
    rw [hnone] at ha
    exact absurd ha (by simp)
  cases hc : calls with
  | nil =>
    refine ⟨by simp [replySeqStates], by simp [replySeqStates], ?_⟩
    intro hnone
    exact (replySeq_chain [] sess (hnone_case hnone) (by simp [replySeqStates])).1
  | cons cl rest =>
    obtain ⟨msgs, created, now⟩ := cl
    have hstates : replySeqStates sess ((msgs, created, now) :: rest)
        = replyCall sess msgs created now
          :: replySeqStates (replyCall sess msgs created now) rest := rfl
    subst hc
    have hmem1 : replyCall sess msgs created now
        ∈ replySeqStates sess ((msgs, created, now) :: rest) := by
      rw [hstates]
      exact List.mem_cons_self _ _
    have hb1 := hb _ hmem1
    have hlink1 := replyCall_link sess msgs created now hb1
    have hbrest : ∀ s' ∈ replySeqStates (replyCall sess msgs created now) rest,
        conversationTextLen s'.conversation < 8589934592 := by
      intro s' hs'
      exact hb s' (by rw [hstates]; exact List.mem_cons_of_mem _ hs')
    obtain ⟨hchain, hmc⟩ :=
      replySeq_chain rest (replyCall sess msgs created now) hlink1 hbrest
    refine ⟨by rw [hstates]; exact hchain, ?_, ?_⟩
    · intro s' hs'
      rw [hstates] at hs'
      rcases List.mem_cons.mp hs' with h1 | h2
      · subst h1
        exact replyCall_msgCount sess msgs created now
      · exact hmc s' h2
    · intro hnone
      exact (replySeq_chain ((msgs, created, now) :: rest) sess
        (hnone_case hnone) hb).1

theorem genResp_len_of_big (msgs : List Message)
    (h : lastUserText msgs = List.replicate bigLen 'a') :
    (generateMockResponse msgs).length = 296 := by
  have hne : (List.replicate bigLen 'a' : GoStr) ≠ [] := by
    intro hnil
    have hlen := congrArg List.length hnil
    rw [List.length_replicate] at hlen
    exact absurd hlen (by norm_num [bigLen])
  have htrunc : ¬ ((List.replicate bigLen 'a' : GoStr).length ≤ 100) := by
    rw [List.length_replicate]
    norm_num [bigLen]
  have hh : mockReplyHead.length = 19 := by decide
  have ht : mockReplyTail.length = 174 := by decide
  have hd : ( "...".toList : GoStr).length = 3 := by decide
  simp only [generateMockResponse, h]
  rw [if_neg hne]
  rw [goTruncate, if_neg htrunc]
  simp only [List.length_append, List.length_take, List.length_replicate,
    hh, ht, hd]
  norm_num [bigLen]

theorem lastUserText_cex1 :
    lastUserText (freshSessC2.conversation ++ [bigMsgC2])
      = List.replicate bigLen 'a' := by
  have h0 : freshSessC2.conversation ++ [bigMsgC2] = [bigMsgC2] := rfl
  rw [h0]
  simp [lastUserText, bigMsgC2, NewUserMessage, firstTextOfContents,
    contentTypeText, List.find?]

theorem lastUserText_cex2 :
    lastUserText ((replyCall freshSessC2 [bigMsgC2] 0 0).conversation ++ [])
      = List.replicate bigLen 'a' := by
  have hempty : freshSessC2.conversation = [] := rfl
  have h0 : (replyCall freshSessC2 [bigMsgC2] 0 0).conversation ++ []
      = [ bigMsgC2,
          NewAssistantMessage
            (generateMockResponse (freshSessC2.conversation ++ [bigMsgC2])) 0 ] := by
    rw [replyCall_eq]
    simp [hempty]
  rw [h0]
  simp [lastUserText, bigMsgC2, NewUserMessage, NewAssistantMessage,
    firstTextOfContents, contentTypeText, List.find?]

/-- C2 counterexample: the claim as stated (with no overflow bound) fails.
Starting from a fresh session, a `/reply` call carrying a message of
2^33 - 400 characters makes the token estimate reach 2^31 - 26; the next
(empty) call re-estimates the grown conversation and the `int32` addition
wraps to a negative value, so `accumulatedTotalTokens` decreases. -/
theorem claim_C2_counterexample :
    ¬ List.Chain' (fun a b => accTotal a ≤ accTotal b)
        (replySeqStates freshSessC2 cexCallsC2) := by
  intro hchain
  have hempty : freshSessC2.conversation = [] := rfl
  have hL1 : conversationTextLen (freshSessC2.conversation ++ [bigMsgC2])
      = bigLen := by
    simp [hempty, conversationTextLen, messageTextLen, bigMsgC2, NewUserMessage,
      contentTextLen, contentTypeText]
  have hR1 : (generateMockResponse (freshSessC2.conversation ++ [bigMsgC2])).length
      = 296 := genResp_len_of_big _ lastUserText_cex1
  have hacc1 : accTotal (replyCall freshSessC2 [bigMsgC2] 0 0) = 2147483622 := by
    rw [replyCall_accTotal_raw freshSessC2 [bigMsgC2] 0 0, hL1, hR1]
    decide
  have hL2 : conversationTextLen
      ((replyCall freshSessC2 [bigMsgC2] 0 0).conversation ++ [])
      = 8589934488 := by
    rw [conversationTextLen_append, replyCall_textLen, hL1, hR1]
    norm_num [conversationTextLen, bigLen]
  have hR2 : (generateMockResponse
      ((replyCall freshSessC2 [bigMsgC2] 0 0).conversation ++ [])).length
      = 296 := genResp_len_of_big _ lastUserText_cex2
  have hacc2 : accTotal (replyCall (replyCall freshSessC2 [bigMsgC2] 0 0) [] 0 0)
      = -2147483600 := by
    rw [replyCall_accTotal_raw (replyCall freshSessC2 [bigMsgC2] 0 0) [] 0 0,
      hL2, hR2]
    decide
  have hstates : replySeqStates freshSessC2 cexCallsC2
      = [ replyCall freshSessC2 [bigMsgC2] 0 0,
          replyCall (replyCall freshSessC2 [bigMsgC2] 0 0) [] 0 0 ] := rfl
  rw [hstates] at hchain
  have hle := (List.chain'_cons.mp hchain).1
  rw [hacc1, hacc2] at hle
  norm_num at hle

/-- Witness for the amended C2 at a fresh session and one small call. -/
theorem claim_C2_witness :
    (∀ s' ∈ replySeqStates freshSessC2 smallCallsC2,
        conversationTextLen s'.conversation < 8589934592)
    ∧ (List.Chain' (fun a b => accTotal a ≤ accTotal b)
          (replySeqStates freshSessC2 smallCallsC2)
      ∧ (∀ s' ∈ replySeqStates freshSessC2 smallCallsC2,
          s'.messageCount = s'.conversation.length)
      ∧ (freshSessC2.accumulatedTotalTokens = none →
          List.Chain' (fun a b => accTotal a ≤ accTotal b)
            (freshSessC2 :: replySeqStates freshSessC2 smallCallsC2))) :=
  ⟨by decide, claim_C2_amended_reply_monotonic freshSessC2 smallCallsC2 (by decide)⟩

end GooseSpec
